import Mathlib

/-!
Verification of the wire codec, dynamic record and revisioned decoder
bound in `src/docs/cxx/caitlyn_js.cpp`.

The repository file under verification is the binding/glue layer: it
contains the glue functions `_encode_package`, `_decode_package`,
`_package_content`, `_package_length`, the module-level buffer
`__encode_buffer`, and the binding table exposing `_net_package`, `_sv`
(StructValue), `_index_schema` and `_index_serializer`.  The bodies of
the bound library routines (`_net_package::encode/decode`,
`serializer::compress/uncompress`, the `_sv` accessors, and
`_deserialize_by_time`) live in headers that are not part of the visible
source; those are modelled from the specification, and each such
definition says so in its doc comment.  The glue functions themselves are
translated directly from the source.
-/

namespace Caitlyn

/-- Error codes from the `ERROR_CODE` enum bound at
`src/docs/cxx/caitlyn_js.cpp:143`-`191` (the subset reachable by the
operations modelled here). -/
inductive Err where
  | ErrorFormat
  | ErrorNoCmd
  | ErrorNoField
  | ErrorInvalidFieldType
  | ErrorNoIndex
  deriving DecidableEq, Repr

instance {ε α : Type} [DecidableEq ε] [DecidableEq α] :
    DecidableEq (Except ε α) := fun a b =>
  match a, b with
  | .error e₁, .error e₂ =>
      if h : e₁ = e₂ then isTrue (by rw [h])
      else isFalse (by intro hc; cases hc; exact h rfl)
  | .ok v₁, .ok v₂ =>
      if h : v₁ = v₂ then isTrue (by rw [h])
      else isFalse (by intro hc; cases hc; exact h rfl)
  | .error _, .ok _ => isFalse (by intro hc; cases hc)
  | .ok _, .error _ => isFalse (by intro hc; cases hc)

/-- Little-endian serialization of a natural number into `k` bytes
(each byte `< 256`); the value is taken modulo `256^k`, matching
fixed-width machine integers. -/
def toLE : Nat → Nat → List Nat
  | 0, _ => []
  | k + 1, n => n % 256 :: toLE k (n / 256)

/-- Little-endian read of a byte list as a natural number. -/
def fromLE : List Nat → Nat
  | [] => 0
  | b :: bs => b % 256 + 256 * fromLE bs

/-- Read a signed 16-bit two's-complement value from two bytes. -/
def int16OfBytes (b0 b1 : Nat) : Int :=
  let c : Nat := b0 % 256 + 256 * (b1 % 256)
  if c < 32768 then (c : Int) else (c : Int) - 65536

/-- Two's-complement 16-bit normalization of an integer (the value an
`int16_t` parameter actually holds at the ABI boundary). -/
def int16OfInt (x : Int) : Int :=
  (x + 32768) % 65536 - 32768

/-- Serialize a signed 16-bit value into two little-endian bytes. -/
def int16ToBytes (x : Int) : List Nat :=
  toLE 2 (x % 65536).toNat

/-! ## CompressionCodec -/

/-- Modelled from the spec: `raisethink::caitlyn::serializer::compress`
(called at `src/docs/cxx/caitlyn_js.cpp:60`; its body is not in the
visible source).  Per the spec, `compress` "produces a payload prefixed
by a fixed 8-byte header (sizing/validation metadata for the
decompressor) followed by the compressed body" and is deterministic.
The spec leaves the body transform unspecified beyond being
deterministic and invertible, so the body is modelled as the payload
bytes themselves, and the 8-byte header as the payload size in eight
little-endian bytes (sizing metadata). -/
def compress (b : List Nat) : List Nat :=
  toLE 8 b.length ++ b

/-- Modelled from the spec: `raisethink::caitlyn::serializer::uncompress`
(called at `src/docs/cxx/caitlyn_js.cpp:66`; its body is not in the
visible source).  Per the spec it "fails with `ErrorFormat` if the
header is absent, truncated, or declares a size inconsistent with the
supplied buffer", and per the spec's wire contract the decompressed
output buffer begins with the 8-byte compression-metadata region which
the decoder then skips (`_decode_package` reads `&__buf[8]`,
`__buf.size()-8`), so the successful output retains the 8-byte header
followed by the payload. -/
def uncompress (c : List Nat) : Except Err (List Nat) :=
  if c.length < 8 then .error .ErrorFormat
  else if fromLE (c.take 8) = c.length - 8 then .ok c
  else .error .ErrorFormat

/-! ## WireEnvelope (NetPackage) -/

/-- `_net_header` as bound at `src/docs/cxx/caitlyn_js.cpp:192`: a
single 16-bit signed command code. -/
structure NetHeader where
  cmd : Int
  deriving DecidableEq, Repr

/-- `_net_package` as bound at `src/docs/cxx/caitlyn_js.cpp:196`:
`m_pkgHeader` plus the content byte sequence `m_pkgContent`. -/
structure NetPackage where
  header : NetHeader
  content : List Nat
  deriving DecidableEq, Repr

/-- Modelled from the spec: `_net_package::encode` (called at
`src/docs/cxx/caitlyn_js.cpp:59`; its body is not in the visible
source).  Per the spec's wire contract the serialized form is
`cmd:int16 ‖ content:bytes`. -/
def netEncode (p : NetPackage) : List Nat :=
  int16ToBytes p.header.cmd ++ p.content

/-- Modelled from the spec: `_net_package::decode` (called at
`src/docs/cxx/caitlyn_js.cpp:68`; its body is not in the visible
source).  Parses `cmd:int16 ‖ content:bytes`; a buffer too short to
hold the command code fails with `ErrorFormat` (spec: truncated content
is a `Format` error). -/
def netDecode (buf : List Nat) : Except Err NetPackage :=
  match buf with
  | b0 :: b1 :: rest => .ok ⟨⟨int16OfBytes b0 b1⟩, rest⟩
  | _ => .error .ErrorFormat

/-- `_encode_package` (`src/docs/cxx/caitlyn_js.cpp:49`-`62`): stores
`cmd` into `pkg.m_pkgHeader.cmd` (an `int16_t`, hence the two's
complement normalization at the ABI boundary), copies `content` into
`pkg.m_pkgContent`, serializes the package and compresses the result.
Returns the mutated package together with the produced wire bytes (the
bytes are written into the module-level `__encode_buffer`; see
`encodePackageSt`). -/
def _encode_package (pkg : NetPackage) (cmd : Int) (content : List Nat) :
    NetPackage × List Nat :=
  let pkg' : NetPackage := { pkg with
    header := { cmd := int16OfInt cmd }
    content := content }
  (pkg', compress (netEncode pkg'))

/-- `_decode_package` (`src/docs/cxx/caitlyn_js.cpp:63`-`70`): when the
input is non-empty, decompresses it and decodes the decompressed buffer
from offset 8 with length `size - 8`; when the input is empty it does
nothing at all, leaving the package exactly as it was. -/
def _decode_package (pkg : NetPackage) (data : List Nat) :
    Except Err NetPackage :=
  if data.length > 0 then
    match uncompress data with
    | .error e => .error e
    | .ok buf => netDecode (buf.drop 8)
  else .ok pkg

/-- `_package_content` (`src/docs/cxx/caitlyn_js.cpp:71`-`77`): a view
of `pkg.m_pkgContent`. -/
def _package_content (pkg : NetPackage) : List Nat :=
  pkg.content

/-- `_package_length` (`src/docs/cxx/caitlyn_js.cpp:78`-`80`):
`pkg.m_pkgContent.size()`. -/
def _package_length (pkg : NetPackage) : Nat :=
  pkg.content.length

/-! ## The module-level encode buffer

`ByteArray __encode_buffer;` at `src/docs/cxx/caitlyn_js.cpp:47` is a
module-level mutable buffer.  `_encode_package` clears it, writes the
compressed wire bytes into it, and returns
`val(typed_memory_view(__encode_buffer.size(), &__encode_buffer[0]))` —
a view over that shared buffer, not a copy.  The state is modelled
explicitly, and `viewBytes` gives the bytes an earlier-returned view
reads under a later state. -/

/-- The mutable module-level state: the contents of `__encode_buffer`. -/
structure EncoderState where
  buffer : List Nat
  deriving DecidableEq, Repr

/-- `_encode_package` with its effect on the module-level
`__encode_buffer` made explicit: the buffer is cleared and overwritten
with this call's wire bytes. -/
def encodePackageSt (_st : EncoderState) (pkg : NetPackage) (cmd : Int)
    (content : List Nat) : EncoderState × NetPackage :=
  let r := _encode_package pkg cmd content
  (⟨r.2⟩, r.1)

/-- The bytes read through any view previously returned by
`_encode_package`, under the current state: every returned
`typed_memory_view` aliases `__encode_buffer`, so it reads the buffer's
current contents. -/
def viewBytes (st : EncoderState) : List Nat :=
  st.buffer

/-! ## StructValue (`_sv`)

The `_sv` record and its typed accessors live in `caitlyn_js_sv.hpp`,
which is not part of the visible source; they are modelled from the
spec.  The binding table at `src/docs/cxx/caitlyn_js.cpp:208`-`236` —
which IS in the visible source — maps each JavaScript-facing name to a
member function; those rows are translated verbatim below as the `js*`
operations. -/

/-- Two's-complement 32-bit normalization (an `int32_t` value at the
ABI boundary). -/
def int32OfInt (x : Int) : Int :=
  (x + 2 ^ 31) % 2 ^ 32 - 2 ^ 31

/-- Two's-complement 64-bit normalization (an `int64_t` value at the
ABI boundary). -/
def int64OfInt (x : Int) : Int :=
  (x + 2 ^ 63) % 2 ^ 64 - 2 ^ 63

/-- Modelled from the spec: one dynamically typed field slot of a
StructValue.  Supported types: signed 32-bit int, signed 64-bit int,
double, string, and vector variants of each.  Doubles are represented
exactly as rationals (the accessor round trip stores and returns values
verbatim, no arithmetic is performed on them). -/
inductive SVal where
  | i32 (v : Int)
  | i64 (v : Int)
  | dbl (v : ℚ)
  | str (s : String)
  | vi32 (v : List Int)
  | vi64 (v : List Int)
  | vdbl (v : List ℚ)
  | vstr (v : List String)
  deriving DecidableEq, Repr

/-- Modelled from the spec: the `_sv` dynamic record — identifying
metadata (namespace, metric id, time tag, granularity, market,
instrument code) plus the ordered sequence of typed fields.  The
`namespace` member is called `ns` (`namespace` is reserved in Lean). -/
structure _sv where
  ns : Int := 0
  metaID : Int := 0
  timeTag : Nat := 0
  granularity : Int := 0
  market : String := ""
  stockCode : String := ""
  fields : List SVal := []
  deriving DecidableEq, Repr

namespace _sv

/-- `_sv::size` — the field count (bound as the `fieldCount` property). -/
def size (sv : _sv) : Nat := sv.fields.length

/-- Modelled from the spec: `_sv::getInt`.  Reading at
`pos >= fields.length` fails with `ErrorNoField`; a slot holding a
value of another type fails with `ErrorInvalidFieldType`. -/
def getInt (sv : _sv) (pos : Nat) : Except Err Int :=
  match sv.fields[pos]? with
  | none => .error .ErrorNoField
  | some (.i32 v) => .ok v
  | some _ => .error .ErrorInvalidFieldType

/-- Modelled from the spec: `_sv::setInt`.  Writing at
`pos >= fields.length` fails with `ErrorNoField`; otherwise the slot is
overwritten with the 32-bit value (unchecked dynamic write — no schema
is bound in this context). -/
def setInt (sv : _sv) (pos : Nat) (v : Int) : Except Err _sv :=
  if pos < sv.fields.length then
    .ok { sv with fields := sv.fields.set pos (.i32 (int32OfInt v)) }
  else .error .ErrorNoField

/-- Modelled from the spec: `_sv::getInt64S` (64-bit read; the `S`
suffix marshals the value as a string across the JS boundary, which is
value-preserving and not modelled). -/
def getInt64S (sv : _sv) (pos : Nat) : Except Err Int :=
  match sv.fields[pos]? with
  | none => .error .ErrorNoField
  | some (.i64 v) => .ok v
  | some _ => .error .ErrorInvalidFieldType

/-- Modelled from the spec: `_sv::setInt64S`. -/
def setInt64S (sv : _sv) (pos : Nat) (v : Int) : Except Err _sv :=
  if pos < sv.fields.length then
    .ok { sv with fields := sv.fields.set pos (.i64 (int64OfInt v)) }
  else .error .ErrorNoField

/-- Modelled from the spec: `_sv::getDouble`. -/
def getDouble (sv : _sv) (pos : Nat) : Except Err ℚ :=
  match sv.fields[pos]? with
  | none => .error .ErrorNoField
  | some (.dbl v) => .ok v
  | some _ => .error .ErrorInvalidFieldType

/-- Modelled from the spec: `_sv::setDouble`. -/
def setDouble (sv : _sv) (pos : Nat) (v : ℚ) : Except Err _sv :=
  if pos < sv.fields.length then
    .ok { sv with fields := sv.fields.set pos (.dbl v) }
  else .error .ErrorNoField

/-- Modelled from the spec: `_sv::getString`. -/
def getString (sv : _sv) (pos : Nat) : Except Err String :=
  match sv.fields[pos]? with
  | none => .error .ErrorNoField
  | some (.str s) => .ok s
  | some _ => .error .ErrorInvalidFieldType

/-- Modelled from the spec: `_sv::setString`. -/
def setString (sv : _sv) (pos : Nat) (s : String) : Except Err _sv :=
  if pos < sv.fields.length then
    .ok { sv with fields := sv.fields.set pos (.str s) }
  else .error .ErrorNoField

/-- Modelled from the spec: `_sv::getInt32Vector`. -/
def getInt32Vector (sv : _sv) (pos : Nat) : Except Err (List Int) :=
  match sv.fields[pos]? with
  | none => .error .ErrorNoField
  | some (.vi32 v) => .ok v
  | some _ => .error .ErrorInvalidFieldType

/-- Modelled from the spec: `_sv::setInt32Vector`. -/
def setInt32Vector (sv : _sv) (pos : Nat) (v : List Int) :
    Except Err _sv :=
  if pos < sv.fields.length then
    .ok { sv with fields := sv.fields.set pos (.vi32 (v.map int32OfInt)) }
  else .error .ErrorNoField

/-- Modelled from the spec: `_sv::getInt64VectorS`. -/
def getInt64VectorS (sv : _sv) (pos : Nat) : Except Err (List Int) :=
  match sv.fields[pos]? with
  | none => .error .ErrorNoField
  | some (.vi64 v) => .ok v
  | some _ => .error .ErrorInvalidFieldType

/-- Modelled from the spec: `_sv::setInt64VectorS`. -/
def setInt64VectorS (sv : _sv) (pos : Nat) (v : List Int) :
    Except Err _sv :=
  if pos < sv.fields.length then
    .ok { sv with fields := sv.fields.set pos (.vi64 (v.map int64OfInt)) }
  else .error .ErrorNoField

/-- Modelled from the spec: `_sv::getDoubleVector`. -/
def getDoubleVector (sv : _sv) (pos : Nat) : Except Err (List ℚ) :=
  match sv.fields[pos]? with
  | none => .error .ErrorNoField
  | some (.vdbl v) => .ok v
  | some _ => .error .ErrorInvalidFieldType

/-- Modelled from the spec: `_sv::setDoubleVector`. -/
def setDoubleVector (sv : _sv) (pos : Nat) (v : List ℚ) :
    Except Err _sv :=
  if pos < sv.fields.length then
    .ok { sv with fields := sv.fields.set pos (.vdbl v) }
  else .error .ErrorNoField

/-- Modelled from the spec: `_sv::getStringVector`. -/
def getStringVector (sv : _sv) (pos : Nat) : Except Err (List String) :=
  match sv.fields[pos]? with
  | none => .error .ErrorNoField
  | some (.vstr v) => .ok v
  | some _ => .error .ErrorInvalidFieldType

/-- Modelled from the spec: `_sv::setStringVector`. -/
def setStringVector (sv : _sv) (pos : Nat) (v : List String) :
    Except Err _sv :=
  if pos < sv.fields.length then
    .ok { sv with fields := sv.fields.set pos (.vstr v) }
  else .error .ErrorNoField

end _sv

/-! ### The StructValue binding table

Each row below is one `.function(...)` row of the binding table at
`src/docs/cxx/caitlyn_js.cpp:218`-`233`, the JavaScript-facing name on
the left and the bound member on the right.  Note line 219: the name
`"setInt32"` is bound to `&_sv::getInt` — the GETTER — so the
JavaScript-level `setInt32(pos, v)` invokes a read, ignores `v`, and
writes nothing. -/

/-- Line 218: `"getInt32"` ↦ `&_sv::getInt`. -/
def jsGetInt32 (sv : _sv) (pos : Nat) : Except Err Int :=
  sv.getInt pos

/-- Line 219: `"setInt32"` ↦ `&_sv::getInt` — the getter, not
`&_sv::setInt`.  The call leaves the record unchanged and returns the
getter's result; the value argument is ignored. -/
def jsSetInt32 (sv : _sv) (pos : Nat) (_v : Int) :
    _sv × Except Err Int :=
  (sv, sv.getInt pos)

/-- Line 220: `"getInt64"` ↦ `&_sv::getInt64S`. -/
def jsGetInt64 (sv : _sv) (pos : Nat) : Except Err Int :=
  sv.getInt64S pos

/-- Line 221: `"setInt64"` ↦ `&_sv::setInt64S`. -/
def jsSetInt64 (sv : _sv) (pos : Nat) (v : Int) : Except Err _sv :=
  sv.setInt64S pos v

/-- Line 222: `"getDouble"` ↦ `&_sv::getDouble`. -/
def jsGetDouble (sv : _sv) (pos : Nat) : Except Err ℚ :=
  sv.getDouble pos

/-- Line 223: `"setDouble"` ↦ `&_sv::setDouble`. -/
def jsSetDouble (sv : _sv) (pos : Nat) (v : ℚ) : Except Err _sv :=
  sv.setDouble pos v

/-- Line 224: `"getString"` ↦ `&_sv::getString`. -/
def jsGetString (sv : _sv) (pos : Nat) : Except Err String :=
  sv.getString pos

/-- Line 225: `"setString"` ↦ `&_sv::setString`. -/
def jsSetString (sv : _sv) (pos : Nat) (s : String) : Except Err _sv :=
  sv.setString pos s

/-- Line 226: `"getInt32Vector"` ↦ `&_sv::getInt32Vector`. -/
def jsGetInt32Vector (sv : _sv) (pos : Nat) : Except Err (List Int) :=
  sv.getInt32Vector pos

/-- Line 227: `"setInt32Vector"` ↦ `&_sv::setInt32Vector`. -/
def jsSetInt32Vector (sv : _sv) (pos : Nat) (v : List Int) :
    Except Err _sv :=
  sv.setInt32Vector pos v

/-- Line 228: `"getInt64Vector"` ↦ `&_sv::getInt64VectorS`. -/
def jsGetInt64Vector (sv : _sv) (pos : Nat) : Except Err (List Int) :=
  sv.getInt64VectorS pos

/-- Line 229: `"setInt64Vector"` ↦ `&_sv::setInt64VectorS`. -/
def jsSetInt64Vector (sv : _sv) (pos : Nat) (v : List Int) :
    Except Err _sv :=
  sv.setInt64VectorS pos v

/-- Line 230: `"getStringVector"` ↦ `&_sv::getStringVector`. -/
def jsGetStringVector (sv : _sv) (pos : Nat) :
    Except Err (List String) :=
  sv.getStringVector pos

/-- Line 231: `"setStringVector"` ↦ `&_sv::setStringVector`. -/
def jsSetStringVector (sv : _sv) (pos : Nat) (v : List String) :
    Except Err _sv :=
  sv.setStringVector pos v

/-- Line 232: `"getDoubleVector"` ↦ `&_sv::getDoubleVector`. -/
def jsGetDoubleVector (sv : _sv) (pos : Nat) : Except Err (List ℚ) :=
  sv.getDoubleVector pos

/-- Line 233: `"setDoubleVector"` ↦ `&_sv::setDoubleVector`. -/
def jsSetDoubleVector (sv : _sv) (pos : Nat) (v : List ℚ) :
    Except Err _sv :=
  sv.setDoubleVector pos v


/-! ## SchemaRegistry and RevisionedDecoder

`_index_field`, `_index_meta`, `_index_schema` and `_index_serializer`
are bound at `src/docs/cxx/caitlyn_js.cpp:254`-`294`; their bodies live
outside the visible source and are modelled from the spec. -/

/-- `_data_type` as bound at `src/docs/cxx/caitlyn_js.cpp:244`-`253`. -/
inductive _data_type where
  | INT
  | DOUBLE
  | STRING
  | VINT
  | VDOUBLE
  | VSTRING
  | INT64
  | VINT64
  deriving DecidableEq, Repr

/-- `_index_field` with the properties bound at
`src/docs/cxx/caitlyn_js.cpp:254`-`261`: slot index, name, type,
precision (decimal scaling for fixed-point doubles), multiple flag and
sample type. -/
structure _index_field where
  pos_ : Nat := 0
  name_ : String := ""
  type_ : _data_type := .INT
  precision_ : Nat := 0
  multiple_ : Bool := false
  sample_type_ : Int := 0
  deriving DecidableEq, Repr

/-- `_index_share_opt` as bound at `src/docs/cxx/caitlyn_js.cpp:263`. -/
structure _index_share_opt where
  all_ : Bool := false
  user_ids_ : List String := []
  deriving DecidableEq, Repr

/-- `_index_meta` with the properties bound at
`src/docs/cxx/caitlyn_js.cpp:267`-`278`.  A metric's field layout is
versioned by `revision_`. -/
structure _index_meta where
  id_ : Nat := 0
  namespace_ : Nat := 0
  name_ : String := ""
  display_name_ : String := ""
  granularities_ : List Nat := []
  share_ : _index_share_opt := {}
  index_type_ : Nat := 0
  revision_ : Nat := 0
  author_uuid_ : String := ""
  fields_ : List _index_field := []
  deriving DecidableEq, Repr

/-- Modelled from the spec: `_index_schema` — the catalog of metas the
decoder consults, keyed by metric name and revision. -/
structure _index_schema where
  metas : List _index_meta := []
  deriving DecidableEq, Repr

/-- Modelled from the spec: the revision map (bound as `RevisionMap` at
`src/docs/cxx/caitlyn_js.cpp:318`): per metric name, the list of
`(activation time, revision)` pairs relevant to a decode call, so data
produced under different schema versions within one time window can be
decoded. -/
abbrev RevisionMap : Type := List (String × List (Nat × Nat))

/-- Look up a metric name and exact revision in the schema catalog. -/
def findMeta (s : _index_schema) (n : String) (rev : Nat) :
    Option _index_meta :=
  s.metas.find? fun m => decide (m.name_ = n ∧ m.revision_ = rev)

/-- The latest known revision of a metric name in the schema catalog
(the decoder's fallback when the revision map has no applicable
entry). -/
def findLatest (s : _index_schema) (n : String) : Option _index_meta :=
  s.metas.foldl
    (fun acc m =>
      if m.name_ = n then
        match acc with
        | none => some m
        | some a => if a.revision_ < m.revision_ then some m else some a
      else acc)
    none

/-- The revision map's entry list for a metric name. -/
def lookupRM (rm : RevisionMap) (n : String) :
    Option (List (Nat × Nat)) :=
  ((rm : List (String × List (Nat × Nat))).find?
    fun e => decide (e.1 = n)).map (·.2)

/-- The revision in force at `timeTag`: among the entries whose
activation time is `≤ timeTag`, the one activated last. -/
def bestRev (entries : List (Nat × Nat)) (timeTag : Nat) :
    Option (Nat × Nat) :=
  entries.foldl
    (fun acc e =>
      if e.1 ≤ timeTag then
        match acc with
        | none => some e
        | some a => if a.1 < e.1 then some e else some a
      else acc)
    none

/-- Modelled from the spec: revision selection for one record — the
IndexMeta revision is selected from the revision map by the record's
own time tag (the revision in force at that time), falling back to the
schema's latest known revision for the name when the map has no
applicable entry. -/
def selectMeta (s : _index_schema) (rm : RevisionMap) (n : String)
    (timeTag : Nat) : Option _index_meta :=
  match lookupRM rm n with
  | some entries =>
      match bestRev entries timeTag with
      | some er => findMeta s n er.2
      | none => findLatest s n
  | none => findLatest s n

/-- Decode bytes as a string (one byte per character in this model). -/
def strOfBytes (bs : List Nat) : String :=
  String.mk (bs.map Char.ofNat)

/-- A 32-bit two's-complement read of four little-endian bytes. -/
def i32FromBytes (bs : List Nat) : Int :=
  let n := fromLE bs
  if n < 2 ^ 31 then (n : Int) else (n : Int) - 2 ^ 32

/-- A 64-bit two's-complement read of eight little-endian bytes. -/
def i64FromBytes (bs : List Nat) : Int :=
  let n := fromLE bs
  if n < 2 ^ 63 then (n : Int) else (n : Int) - 2 ^ 64

/-- Read `k` consecutive values with a one-value reader, threading the
remaining bytes. -/
def readList {α : Type} (read1 : List Nat → Except Err (α × List Nat)) :
    Nat → List Nat → Except Err (List α × List Nat)
  | 0, bytes => .ok ([], bytes)
  | k + 1, bytes =>
      match read1 bytes with
      | .error e => .error e
      | .ok (v, rest) =>
          match readList read1 k rest with
          | .error e => .error e
          | .ok (vs, rest') => .ok (v :: vs, rest')

/-- Read one 32-bit int field value. -/
def readI32 (bytes : List Nat) : Except Err (Int × List Nat) :=
  if 4 ≤ bytes.length then .ok (i32FromBytes (bytes.take 4), bytes.drop 4)
  else .error .ErrorFormat

/-- Read one 64-bit int field value. -/
def readI64 (bytes : List Nat) : Except Err (Int × List Nat) :=
  if 8 ≤ bytes.length then .ok (i64FromBytes (bytes.take 8), bytes.drop 8)
  else .error .ErrorFormat

/-- Read one double field value: a 64-bit fixed-point integer scaled by
the field's decimal precision (the spec describes `precision` as the
decimal scaling for fixed-point doubles). -/
def readDbl (precision : Nat) (bytes : List Nat) :
    Except Err (ℚ × List Nat) :=
  if 8 ≤ bytes.length then
    .ok ((i64FromBytes (bytes.take 8) : ℚ) / 10 ^ precision, bytes.drop 8)
  else .error .ErrorFormat

/-- Read one string field value: 32-bit length then that many bytes. -/
def readStr (bytes : List Nat) : Except Err (String × List Nat) :=
  if 4 ≤ bytes.length then
    let n := fromLE (bytes.take 4)
    let rest := bytes.drop 4
    if n ≤ rest.length then .ok (strOfBytes (rest.take n), rest.drop n)
    else .error .ErrorFormat
  else .error .ErrorFormat

/-- Read a 32-bit element count followed by that many elements. -/
def readCounted {α : Type}
    (read1 : List Nat → Except Err (α × List Nat)) (bytes : List Nat) :
    Except Err (List α × List Nat) :=
  if 4 ≤ bytes.length then
    readList read1 (fromLE (bytes.take 4)) (bytes.drop 4)
  else .error .ErrorFormat

/-- Modelled from the spec: read one field of a record per its
schema-declared type, consuming fixed-width scalars and
count-prefixed vectors.  (The exact on-wire field grammar is not in the
visible source; this model fixes a concrete little-endian layout so the
decoder is executable.) -/
def readField (f : _index_field) (bytes : List Nat) :
    Except Err (SVal × List Nat) :=
  match f.type_ with
  | .INT =>
      match readI32 bytes with
      | .error e => .error e
      | .ok (v, rest) => .ok (.i32 v, rest)
  | .INT64 =>
      match readI64 bytes with
      | .error e => .error e
      | .ok (v, rest) => .ok (.i64 v, rest)
  | .DOUBLE =>
      match readDbl f.precision_ bytes with
      | .error e => .error e
      | .ok (v, rest) => .ok (.dbl v, rest)
  | .STRING =>
      match readStr bytes with
      | .error e => .error e
      | .ok (v, rest) => .ok (.str v, rest)
  | .VINT =>
      match readCounted readI32 bytes with
      | .error e => .error e
      | .ok (v, rest) => .ok (.vi32 v, rest)
  | .VINT64 =>
      match readCounted readI64 bytes with
      | .error e => .error e
      | .ok (v, rest) => .ok (.vi64 v, rest)
  | .VDOUBLE =>
      match readCounted (readDbl f.precision_) bytes with
      | .error e => .error e
      | .ok (v, rest) => .ok (.vdbl v, rest)
  | .VSTRING =>
      match readCounted readStr bytes with
      | .error e => .error e
      | .ok (v, rest) => .ok (.vstr v, rest)

/-- Modelled from the spec: decode a record's payload per the selected
field layout, in `pos` order (the layout list is kept in `pos` order). -/
def decodeFields (flds : List _index_field) (bytes : List Nat) :
    Except Err (List SVal) :=
  match flds with
  | [] => .ok []
  | f :: rest =>
      match readField f bytes with
      | .error e => .error e
      | .ok (v, b') =>
          match decodeFields rest b' with
          | .error e => .error e
          | .ok vs => .ok (v :: vs)

/-- One logical record of a blob after framing: metric name, the
record's own time tag, and the raw field payload. -/
structure RawRecord where
  name : String
  timeTag : Nat
  payload : List Nat
  deriving DecidableEq, Repr

/-- Serialize one record body (the inverse direction of the framing,
used to state round-trip properties): 32-bit name length, name bytes,
64-bit time tag, then the field payload. -/
def encRecord (name : String) (timeTag : Nat) (payload : List Nat) :
    List Nat :=
  toLE 4 name.length ++ name.data.map Char.toNat ++ toLE 8 timeTag ++
    payload

/-- Modelled from the spec: parse one framed record chunk.  A chunk too
short for its name length and time tag is malformed
(`ErrorFormat` for that record). -/
def parseRecord (chunk : List Nat) : Except Err RawRecord :=
  if chunk.length < 4 then .error .ErrorFormat
  else
    let n := fromLE (chunk.take 4)
    let rest := chunk.drop 4
    if rest.length < n + 8 then .error .ErrorFormat
    else
      .ok ⟨String.mk ((rest.take n).map Char.ofNat),
        fromLE ((rest.drop n).take 8), (rest.drop n).drop 8⟩

/-- Frame one record body with its 32-bit byte length. -/
def encFrame (body : List Nat) : List Nat :=
  toLE 4 body.length ++ body

/-- Modelled from the spec: split a blob into its length-framed record
chunks.  A truncated frame (declared length running past the end of the
blob) is corrupt blob framing — fatal for the whole call. -/
def parseFrames (bytes : List Nat) : Except Err (List (List Nat)) :=
  if bytes = [] then .ok []
  else if bytes.length < 4 then .error .ErrorFormat
  else
    let n := fromLE (bytes.take 4)
    let rest := bytes.drop 4
    if rest.length < n then .error .ErrorFormat
    else
      match parseFrames (rest.drop n) with
      | .error e => .error e
      | .ok tail => .ok (rest.take n :: tail)
termination_by bytes.length
decreasing_by
  simp only [List.length_drop]
  omega

/-- The framed blob encoding a list of records. -/
def blobOf (rs : List RawRecord) : List Nat :=
  (rs.map fun r => encFrame (encRecord r.name r.timeTag r.payload)).flatten

/-- Modelled from the spec: the per-record decode step of the
revisioned decoder — select the meta revision in force at the record's
own time tag, then lay the payload out per that revision's field
layout.  An unknown metric name (or a name/revision pair absent from
the catalog) fails that record with `ErrorNoIndex`. -/
def decodeRecord (s : _index_schema) (rm : RevisionMap)
    (r : RawRecord) : Except Err _sv :=
  match selectMeta s rm r.name r.timeTag with
  | none => .error .ErrorNoIndex
  | some m =>
      match decodeFields m.fields_ r.payload with
      | .error e => .error e
      | .ok vs =>
          .ok { ns := (m.namespace_ : Int), metaID := (m.id_ : Int),
                timeTag := r.timeTag, fields := vs }

/-- Modelled from the spec: `_deserialize_by_time` (bound as
`deserializeByTime` at `src/docs/cxx/caitlyn_js.cpp:292`; its body is
not in the visible source).  Corrupt blob framing is a fatal
`ErrorFormat` for the whole call; otherwise every framed record is
decoded independently: the per-record result is an error entry (for an
unknown metric name, `ErrorNoIndex`) or a decoded StructValue, and one
record's failure never aborts the rest.  The revision used for each
record is selected from the record's own time tag (`selectMeta` inside
`decodeRecord`); the call-level `timeTag` argument does not override
per-record selection. -/
def _deserialize_by_time (s : _index_schema) (rm : RevisionMap)
    (blob : List Nat) (_timeTag : Nat) :
    Except Err (List (Except Err _sv)) :=
  match parseFrames blob with
  | .error _ => .error .ErrorFormat
  | .ok chunks =>
      .ok (chunks.map fun c =>
        match parseRecord c with
        | .error e => .error e
        | .ok r => decodeRecord s rm r)

/-! ## Envelope lemmas -/

theorem toLE_length (k n : Nat) : (toLE k n).length = k := by
  induction k generalizing n with
  | zero => rfl
  | succ k ih => simp [toLE, ih]

theorem fromLE_toLE (k n : Nat) : fromLE (toLE k n) = n % 256 ^ k := by
  induction k generalizing n with
  | zero => simp [toLE, fromLE, Nat.mod_one]
  | succ k ih =>
      simp only [toLE, fromLE, ih]
      rw [pow_succ', Nat.mod_mul]
      omega

theorem int16OfInt_eq_self (x : Int) (h1 : -32768 ≤ x) (h2 : x < 32768) :
    int16OfInt x = x := by
  unfold int16OfInt
  omega


theorem int16OfBytes_int16ToBytes (x : Int) (h1 : -32768 ≤ x)
    (h2 : x < 32768) :
    int16OfBytes ((x % 65536).toNat % 256) ((x % 65536).toNat / 256 % 256)
      = x := by
  unfold int16OfBytes
  dsimp only
  split <;> omega

theorem uncompress_compress (b : List Nat) (h : b.length < 2 ^ 64) :
    uncompress (compress b) = .ok (compress b) := by
  have hlen : (compress b).length = 8 + b.length := by
    simp [compress, toLE_length]
  have htake : (compress b).take 8 = toLE 8 b.length :=
    List.take_left' (toLE_length 8 b.length)
  have hmod : b.length % 256 ^ 8 = b.length :=
    Nat.mod_eq_of_lt (by norm_num at h ⊢; omega)
  unfold uncompress
  rw [htake, hlen, fromLE_toLE, hmod]
  simp

theorem compress_drop8 (b : List Nat) : (compress b).drop 8 = b :=
  List.drop_left' (toLE_length 8 b.length)

theorem netDecode_netEncode (p : NetPackage) (h1 : -32768 ≤ p.header.cmd)
    (h2 : p.header.cmd < 32768) : netDecode (netEncode p) = .ok p := by
  obtain ⟨⟨c⟩, cont⟩ := p
  simp only [netEncode, int16ToBytes, toLE] at *
  simp only [List.cons_append, List.nil_append, netDecode]
  rw [int16OfBytes_int16ToBytes c h1 h2]

/-- C1.  Wire round trip: encoding a package with a valid 16-bit command
code and arbitrary content, then decoding the produced wire bytes,
recovers the same command code and the same content byte-for-byte. -/
theorem wire_roundtrip (pkg pkg₀ : NetPackage) (cmd : Int)
    (content : List Nat) (h1 : -32768 ≤ cmd) (h2 : cmd < 32768)
    (hlen : content.length + 2 < 2 ^ 64) :
    _decode_package pkg₀ (_encode_package pkg cmd content).2 =
      .ok ⟨⟨cmd⟩, content⟩ := by
  have hcmd : int16OfInt cmd = cmd := int16OfInt_eq_self cmd h1 h2
  have hpkg : (_encode_package pkg cmd content).1 =
      (⟨⟨cmd⟩, content⟩ : NetPackage) := by
    simp [_encode_package, hcmd]
  have henc : (_encode_package pkg cmd content).2 =
      compress (netEncode ⟨⟨cmd⟩, content⟩) := by
    rw [show (_encode_package pkg cmd content).2 =
      compress (netEncode (_encode_package pkg cmd content).1) from rfl, hpkg]
  have hblen : (netEncode (⟨⟨cmd⟩, content⟩ : NetPackage)).length < 2 ^ 64 := by
    simp [netEncode, int16ToBytes, toLE_length]
    omega
  have hpos : 0 < (compress (netEncode (⟨⟨cmd⟩, content⟩ : NetPackage))).length := by
    simp [compress, toLE_length]
  rw [henc]
  unfold _decode_package
  rw [if_pos hpos, uncompress_compress _ hblen]
  show netDecode ((compress (netEncode ⟨⟨cmd⟩, content⟩)).drop 8) =
    .ok ⟨⟨cmd⟩, content⟩
  rw [compress_drop8]
  exact netDecode_netEncode ⟨⟨cmd⟩, content⟩ h1 h2

/-- Witness for C1 at cmd = 1001 and content = "hello"
(bytes 104 101 108 108 111). -/
theorem wire_roundtrip_witness :
    (-32768 ≤ (1001 : Int)) ∧ (1001 : Int) < 32768 ∧
    ([104, 101, 108, 108, 111] : List Nat).length + 2 < 2 ^ 64 ∧
    _decode_package ⟨⟨0⟩, []⟩
        (_encode_package ⟨⟨0⟩, []⟩ 1001 [104, 101, 108, 108, 111]).2 =
      .ok ⟨⟨1001⟩, [104, 101, 108, 108, 111]⟩ :=
  ⟨by norm_num, by norm_num, by norm_num,
    wire_roundtrip ⟨⟨0⟩, []⟩ ⟨⟨0⟩, []⟩ 1001 [104, 101, 108, 108, 111]
      (by norm_num) (by norm_num) (by norm_num)⟩

/-- C5 counterexample.  `decompress (compress b) = b` fails at the
concrete buffer b = [104, 105]: the decompressed buffer retains the
fixed 8-byte compression-metadata region in front of the payload (the
decoder in `_decode_package` skips it with `&__buf[8]`), so the result
is not b itself. -/
theorem uncompress_compress_not_id :
    uncompress (compress [104, 105]) ≠ .ok [104, 105] := by decide

/-- C5 amended.  Compression round trip with the metadata prefix: for
every byte buffer b (of machine-representable size), decompressing the
result of compressing b succeeds and yields the fixed 8-byte
compression-metadata header followed by exactly b; dropping the 8-byte
prefix recovers b byte-for-byte. -/
theorem uncompress_compress_roundtrip (b : List Nat)
    (h : b.length < 2 ^ 64) :
    uncompress (compress b) = .ok (toLE 8 b.length ++ b) ∧
      (toLE 8 b.length ++ b).drop 8 = b :=
  ⟨uncompress_compress b h, compress_drop8 b⟩

/-- Witness for C5 (amended) at b = "hello" (bytes 104 101 108 108 111). -/
theorem uncompress_compress_roundtrip_witness :
    ([104, 101, 108, 108, 111] : List Nat).length < 2 ^ 64 ∧
    (uncompress (compress [104, 101, 108, 108, 111]) =
        .ok (toLE 8 ([104, 101, 108, 108, 111] : List Nat).length ++
          [104, 101, 108, 108, 111]) ∧
      (toLE 8 ([104, 101, 108, 108, 111] : List Nat).length ++
          [104, 101, 108, 108, 111]).drop 8 = [104, 101, 108, 108, 111]) :=
  ⟨by norm_num, uncompress_compress_roundtrip [104, 101, 108, 108, 111]
    (by norm_num)⟩

/-- C4 counterexample.  Decoding a zero-length buffer does not yield an
empty package for every package: `_decode_package` does nothing when
`data.size() == 0`, so a package that already holds content keeps it.
At the concrete package with cmd 7 and content [1], decode of the empty
buffer succeeds but the resulting content is [1], not empty. -/
theorem decode_empty_not_empty_package :
    _decode_package ⟨⟨7⟩, [1]⟩ [] = .ok ⟨⟨7⟩, [1]⟩ ∧
      _package_content ⟨⟨7⟩, [1]⟩ ≠ [] := by decide

/-- C4 amended.  Decoding a zero-length byte buffer succeeds without
error and is a no-op: the package is left exactly as it was (so a fresh
empty package remains empty — the keepalive case). -/
theorem decode_empty_noop (pkg : NetPackage) :
    _decode_package pkg [] = .ok pkg := by
  simp [_decode_package]

theorem uncompress_error_format (data : List Nat) (e : Err)
    (h : uncompress data = .error e) : e = .ErrorFormat := by
  unfold uncompress at h
  split at h
  next => injection h with h'; exact h'.symm
  next =>
    split at h
    next => simp at h
    next => injection h with h'; exact h'.symm

theorem uncompress_ok_length (data buf : List Nat)
    (h : uncompress data = .ok buf) : buf = data ∧ 8 ≤ data.length := by
  unfold uncompress at h
  split at h
  next => simp at h
  next hlt =>
    split at h
    next => injection h with h'; exact ⟨h'.symm, by omega⟩
    next => simp at h

/-- C8.  Truncated-header rejection: a non-empty input shorter than the
8-byte compression header fails with `ErrorFormat`; any decompression
failure (header absent, truncated, or declaring an inconsistent size)
makes `_decode_package` fail with `ErrorFormat`; and whenever
decompression succeeds, the decompressed buffer holds at least 8 bytes,
so the access at offset 8 and the subtraction `size - 8` are well
defined and the decode proceeds on exactly the bytes after the 8-byte
region. -/
theorem decode_truncated_header_safe (pkg : NetPackage) (data : List Nat)
    (h : 0 < data.length) :
    (data.length < 8 → _decode_package pkg data = .error .ErrorFormat) ∧
    (∀ e, uncompress data = .error e →
      e = .ErrorFormat ∧ _decode_package pkg data = .error .ErrorFormat) ∧
    (∀ buf, uncompress data = .ok buf →
      8 ≤ buf.length ∧ (buf.drop 8).length = buf.length - 8 ∧
        _decode_package pkg data = netDecode (buf.drop 8)) := by
  refine ⟨?_, ?_, ?_⟩
  · intro hlt
    have hu : uncompress data = .error .ErrorFormat := by
      unfold uncompress
      rw [if_pos hlt]
    unfold _decode_package
    rw [if_pos h, hu]
  · intro e he
    have hfmt : e = Err.ErrorFormat := uncompress_error_format data e he
    refine ⟨hfmt, ?_⟩
    unfold _decode_package
    rw [if_pos h, he, hfmt]
  · intro buf hbuf
    obtain ⟨hbd, hlen⟩ := uncompress_ok_length data buf hbuf
    subst hbd
    refine ⟨by omega, by simp, ?_⟩
    unfold _decode_package
    rw [if_pos h, hbuf]

/-- Witness for C8 at data = [0] (single byte, header truncated) for a
fresh package. -/
theorem decode_truncated_header_safe_witness :
    0 < ([0] : List Nat).length ∧
    ((([0] : List Nat).length < 8 →
        _decode_package ⟨⟨0⟩, []⟩ [0] = .error .ErrorFormat) ∧
      (∀ e, uncompress [0] = .error e →
        e = .ErrorFormat ∧
          _decode_package ⟨⟨0⟩, []⟩ [0] = .error .ErrorFormat) ∧
      (∀ buf, uncompress [0] = .ok buf →
        8 ≤ buf.length ∧ (buf.drop 8).length = buf.length - 8 ∧
          _decode_package ⟨⟨0⟩, []⟩ [0] = netDecode (buf.drop 8))) :=
  ⟨by decide, decode_truncated_header_safe ⟨⟨0⟩, []⟩ [0] (by decide)⟩

/-- C10.  Encode postcondition: after `_encode_package pkg cmd content`,
the package's header command equals `cmd`, `_package_length` equals the
byte length of `content`, and `_package_content` equals `content`
byte-for-byte (the source stores both into the package at
`src/docs/cxx/caitlyn_js.cpp:54`-`56` before compressing). -/
theorem encode_package_postcondition (pkg : NetPackage) (cmd : Int)
    (content : List Nat) (h1 : -32768 ≤ cmd) (h2 : cmd < 32768) :
    (_encode_package pkg cmd content).1.header.cmd = cmd ∧
    _package_length (_encode_package pkg cmd content).1 = content.length ∧
    _package_content (_encode_package pkg cmd content).1 = content := by
  refine ⟨?_, by simp [_encode_package, _package_length],
    by simp [_encode_package, _package_content]⟩
  simp [_encode_package, int16OfInt_eq_self cmd h1 h2]

/-- Witness for C10 at cmd = 1001, content = "hello". -/
theorem encode_package_postcondition_witness :
    (-32768 ≤ (1001 : Int)) ∧ (1001 : Int) < 32768 ∧
    ((_encode_package ⟨⟨0⟩, []⟩ 1001 [104, 101, 108, 108, 111]).1.header.cmd
        = 1001 ∧
      _package_length
          (_encode_package ⟨⟨0⟩, []⟩ 1001 [104, 101, 108, 108, 111]).1 =
        ([104, 101, 108, 108, 111] : List Nat).length ∧
      _package_content
          (_encode_package ⟨⟨0⟩, []⟩ 1001 [104, 101, 108, 108, 111]).1 =
        [104, 101, 108, 108, 111]) :=
  ⟨by norm_num, by norm_num,
    encode_package_postcondition ⟨⟨0⟩, []⟩ 1001 [104, 101, 108, 108, 111]
      (by norm_num) (by norm_num)⟩

/-- C3 counterexample.  The value returned by `_encode_package` is a
`typed_memory_view` over the module-level `__encode_buffer`, not an
independently owned copy: the bytes read through the first call's view
right after the first call differ from the bytes read through that same
view after a second call with different content — the second encode
call overwrites what the first call returned. -/
theorem encode_shared_buffer_cex :
    viewBytes (encodePackageSt ⟨[]⟩ ⟨⟨0⟩, []⟩ 1 [0]).1 ≠
      viewBytes
        (encodePackageSt (encodePackageSt ⟨[]⟩ ⟨⟨0⟩, []⟩ 1 [0]).1
          ⟨⟨0⟩, []⟩ 1 [1]).1 := by decide

/-- C3 amended.  Each `_encode_package` call overwrites the single
module-level `__encode_buffer` and returns a view of it: after any two
sequential encode calls, every previously returned view reads the
second call's wire bytes — the first call's returned byte sequence is
preserved only when both calls happen to produce identical bytes. -/
theorem encode_shared_buffer_aliasing (st : EncoderState)
    (p1 p2 : NetPackage) (c1 c2 : Int) (b1 b2 : List Nat) :
    viewBytes (encodePackageSt st p1 c1 b1).1 =
        (_encode_package p1 c1 b1).2 ∧
      viewBytes
          (encodePackageSt (encodePackageSt st p1 c1 b1).1 p2 c2 b2).1 =
        (_encode_package p2 c2 b2).2 :=
  ⟨rfl, rfl⟩

/-! ## StructValue theorems -/

/-- C2 (code bug).  The `"setInt32"` binding row at
`src/docs/cxx/caitlyn_js.cpp:219` points at the getter `&_sv::getInt`
instead of the setter `&_sv::setInt` (every other type's row pairs
set↦setter), so the JavaScript-level `setInt32(0, 42)` on a record
whose Int32 slot 0 holds 0 writes nothing: the record is unchanged and
`getInt32(0)` still returns 0, not 42 — while going through the member
setter `_sv::setInt` itself would return 42.  The typed-accessor round
trip therefore fails for Int32 through the published binding. -/
theorem setInt32_binding_bug :
    (jsSetInt32 { fields := [SVal.i32 0] } 0 42).1 =
        ({ fields := [SVal.i32 0] } : _sv) ∧
      jsGetInt32 (jsSetInt32 { fields := [SVal.i32 0] } 0 42).1 0 =
        .ok 0 ∧
      Except.bind (_sv.setInt { fields := [SVal.i32 0] } 0 42)
          (fun sv => _sv.getInt sv 0) = .ok 42 := by
  decide

/-- C9.  Out-of-range field access: for every record and every slot
index at or beyond the field count, every typed getter and setter
exposed by the binding table fails with `ErrorNoField` — a returned
error value, never a crash and never a silently returned default.
(The `setInt32` row is bound to the getter — src line 219 — so its
failure is the error component of the returned pair.) -/
theorem out_of_range_field_access (sv : _sv) (pos : Nat) (v32 v64 : Int)
    (d : ℚ) (s : String) (lv32 lv64 : List Int) (ld : List ℚ)
    (ls : List String) (h : _sv.size sv ≤ pos) :
    jsGetInt32 sv pos = .error .ErrorNoField ∧
    (jsSetInt32 sv pos v32).2 = .error .ErrorNoField ∧
    jsGetInt64 sv pos = .error .ErrorNoField ∧
    jsSetInt64 sv pos v64 = .error .ErrorNoField ∧
    jsGetDouble sv pos = .error .ErrorNoField ∧
    jsSetDouble sv pos d = .error .ErrorNoField ∧
    jsGetString sv pos = .error .ErrorNoField ∧
    jsSetString sv pos s = .error .ErrorNoField ∧
    jsGetInt32Vector sv pos = .error .ErrorNoField ∧
    jsSetInt32Vector sv pos lv32 = .error .ErrorNoField ∧
    jsGetInt64Vector sv pos = .error .ErrorNoField ∧
    jsSetInt64Vector sv pos lv64 = .error .ErrorNoField ∧
    jsGetStringVector sv pos = .error .ErrorNoField ∧
    jsSetStringVector sv pos ls = .error .ErrorNoField ∧
    jsGetDoubleVector sv pos = .error .ErrorNoField ∧
    jsSetDoubleVector sv pos ld = .error .ErrorNoField := by
  have hnone : sv.fields[pos]? = none :=
    List.getElem?_eq_none (by simpa [_sv.size] using h)
  have hlt : ¬ pos < sv.fields.length := by
    simp [_sv.size] at h
    omega
  refine ⟨?_, ?_, ?_, ?_, ?_, ?_, ?_, ?_, ?_, ?_, ?_, ?_, ?_, ?_, ?_, ?_⟩ <;>
    simp [jsGetInt32, jsSetInt32, jsGetInt64, jsSetInt64, jsGetDouble,
      jsSetDouble, jsGetString, jsSetString, jsGetInt32Vector,
      jsSetInt32Vector, jsGetInt64Vector, jsSetInt64Vector,
      jsGetStringVector, jsSetStringVector, jsGetDoubleVector,
      jsSetDoubleVector, _sv.getInt, _sv.setInt, _sv.getInt64S,
      _sv.setInt64S, _sv.getDouble, _sv.setDouble, _sv.getString,
      _sv.setString, _sv.getInt32Vector, _sv.setInt32Vector,
      _sv.getInt64VectorS, _sv.setInt64VectorS, _sv.getDoubleVector,
      _sv.setDoubleVector, _sv.getStringVector, _sv.setStringVector,
      hnone, hlt]

/-- Witness for C9: the empty record at slot 0. -/
theorem out_of_range_field_access_witness :
    _sv.size { fields := [] } ≤ 0 ∧
    (jsGetInt32 { fields := [] } 0 = .error .ErrorNoField ∧
      (jsSetInt32 { fields := [] } 0 1).2 = .error .ErrorNoField ∧
      jsGetInt64 { fields := [] } 0 = .error .ErrorNoField ∧
      jsSetInt64 { fields := [] } 0 1 = .error .ErrorNoField ∧
      jsGetDouble { fields := [] } 0 = .error .ErrorNoField ∧
      jsSetDouble { fields := [] } 0 1 = .error .ErrorNoField ∧
      jsGetString { fields := [] } 0 = .error .ErrorNoField ∧
      jsSetString { fields := [] } 0 "x" = .error .ErrorNoField ∧
      jsGetInt32Vector { fields := [] } 0 = .error .ErrorNoField ∧
      jsSetInt32Vector { fields := [] } 0 [1] = .error .ErrorNoField ∧
      jsGetInt64Vector { fields := [] } 0 = .error .ErrorNoField ∧
      jsSetInt64Vector { fields := [] } 0 [1] = .error .ErrorNoField ∧
      jsGetStringVector { fields := [] } 0 = .error .ErrorNoField ∧
      jsSetStringVector { fields := [] } 0 ["x"] = .error .ErrorNoField ∧
      jsGetDoubleVector { fields := [] } 0 = .error .ErrorNoField ∧
      jsSetDoubleVector { fields := [] } 0 [1] = .error .ErrorNoField) :=
  ⟨by decide,
    out_of_range_field_access { fields := [] } 0 1 1 1 "x" [1] [1] [1]
      ["x"] (by decide)⟩

/-! ## Decoder lemmas -/

theorem parseFrames_nil : parseFrames [] = .ok [] := by
  rw [parseFrames]
  simp

theorem parseFrames_encFrame (body rest : List Nat)
    (h : body.length < 2 ^ 32) :
    parseFrames (encFrame body ++ rest) =
      Except.map (body :: ·) (parseFrames rest) := by
  have hre : encFrame body ++ rest =
      toLE 4 body.length ++ (body ++ rest) := by
    simp [encFrame]
  have hne : ¬ (toLE 4 body.length ++ (body ++ rest) = []) := by
    intro hc
    simpa [toLE_length] using congrArg List.length hc
  have hlen4 : ¬ ((toLE 4 body.length ++ (body ++ rest)).length < 4) := by
    simp only [List.length_append, toLE_length]
    omega
  have htake : (toLE 4 body.length ++ (body ++ rest)).take 4 =
      toLE 4 body.length := List.take_left' (toLE_length 4 _)
  have hdrop : (toLE 4 body.length ++ (body ++ rest)).drop 4 =
      body ++ rest := List.drop_left' (toLE_length 4 _)
  have hmod : body.length % 256 ^ 4 = body.length :=
    Nat.mod_eq_of_lt (by norm_num at h ⊢; omega)
  have h3 : ¬ ((body ++ rest).length < body.length) := by
    simp only [List.length_append]
    omega
  rw [hre, parseFrames]
  rw [if_neg hne, if_neg hlen4]
  simp only [htake, hdrop, fromLE_toLE, hmod]
  rw [if_neg h3]
  rw [List.take_left, List.drop_left]
  cases hp : parseFrames rest <;> simp [Except.map, hp]

theorem parseRecord_encRecord (name : String) (timeTag : Nat)
    (payload : List Nat) (hn : name.length < 2 ^ 32)
    (hτ : timeTag < 2 ^ 64) :
    parseRecord (encRecord name timeTag payload) =
      .ok ⟨name, timeTag, payload⟩ := by
  have hnb : (name.data.map Char.toNat).length = name.length := by
    rw [List.length_map]
    rfl
  have hre : encRecord name timeTag payload =
      toLE 4 name.length ++
        (name.data.map Char.toNat ++ (toLE 8 timeTag ++ payload)) := by
    simp [encRecord]
  have h1 : ¬ ((toLE 4 name.length ++
      (name.data.map Char.toNat ++ (toLE 8 timeTag ++ payload))).length
        < 4) := by
    simp only [List.length_append, toLE_length]
    omega
  have htake : (toLE 4 name.length ++
      (name.data.map Char.toNat ++ (toLE 8 timeTag ++ payload))).take 4 =
      toLE 4 name.length := List.take_left' (toLE_length 4 _)
  have hdrop : (toLE 4 name.length ++
      (name.data.map Char.toNat ++ (toLE 8 timeTag ++ payload))).drop 4 =
      name.data.map Char.toNat ++ (toLE 8 timeTag ++ payload) :=
    List.drop_left' (toLE_length 4 _)
  have hmodn : name.length % 256 ^ 4 = name.length :=
    Nat.mod_eq_of_lt (by norm_num at hn ⊢; omega)
  have hmodτ : timeTag % 256 ^ 8 = timeTag :=
    Nat.mod_eq_of_lt (by norm_num at hτ ⊢; omega)
  have h2 : ¬ ((name.data.map Char.toNat ++
      (toLE 8 timeTag ++ payload)).length < name.length + 8) := by
    simp only [List.length_append, toLE_length, hnb]
    omega
  have htakeN : (name.data.map Char.toNat ++
      (toLE 8 timeTag ++ payload)).take name.length =
      name.data.map Char.toNat := List.take_left' hnb
  have hdropN : (name.data.map Char.toNat ++
      (toLE 8 timeTag ++ payload)).drop name.length =
      toLE 8 timeTag ++ payload := List.drop_left' hnb
  have htake8 : (toLE 8 timeTag ++ payload).take 8 = toLE 8 timeTag :=
    List.take_left' (toLE_length 8 _)
  have hdrop8 : (toLE 8 timeTag ++ payload).drop 8 = payload :=
    List.drop_left' (toLE_length 8 _)
  have hname : String.mk ((name.data.map Char.toNat).map Char.ofNat) =
      name := by
    rw [List.map_map]
    have hco : (Char.ofNat ∘ Char.toNat) = id :=
      funext fun c => Char.ofNat_toNat c
    rw [hco, List.map_id]
  rw [hre]
  unfold parseRecord
  rw [if_neg h1]
  simp only [htake, fromLE_toLE, hmodn, hdrop]
  rw [if_neg h2]
  rw [htakeN, hdropN, htake8, hdrop8, fromLE_toLE, hmodτ, hname]

theorem parseFrames_blobOf (rs : List RawRecord)
    (hwf : ∀ r ∈ rs,
      (encRecord r.name r.timeTag r.payload).length < 2 ^ 32) :
    parseFrames (blobOf rs) =
      .ok (rs.map fun r => encRecord r.name r.timeTag r.payload) := by
  induction rs with
  | nil => simpa [blobOf] using parseFrames_nil
  | cons r rs ih =>
      have hb : blobOf (r :: rs) =
          encFrame (encRecord r.name r.timeTag r.payload) ++ blobOf rs := by
        simp [blobOf]
      rw [hb, parseFrames_encFrame _ _ (hwf r (by simp)),
        ih (fun r hr => hwf r (by simp [hr]))]
      simp [Except.map]

theorem deserialize_blobOf (s : _index_schema) (rm : RevisionMap)
    (rs : List RawRecord) (tt : Nat)
    (hwf : ∀ r ∈ rs, r.name.length < 2 ^ 32 ∧ r.timeTag < 2 ^ 64 ∧
      (encRecord r.name r.timeTag r.payload).length < 2 ^ 32) :
    _deserialize_by_time s rm (blobOf rs) tt =
      .ok (rs.map (decodeRecord s rm)) := by
  unfold _deserialize_by_time
  rw [parseFrames_blobOf rs (fun r hr => (hwf r hr).2.2)]
  show Except.ok
      ((rs.map fun r => encRecord r.name r.timeTag r.payload).map fun c =>
        match parseRecord c with
        | .error e => .error e
        | .ok r => decodeRecord s rm r) =
    .ok (rs.map (decodeRecord s rm))
  rw [List.map_map]
  congr 1
  apply List.map_congr_left
  intro r hr
  simp only [Function.comp]
  rw [parseRecord_encRecord r.name r.timeTag r.payload (hwf r hr).1
    (hwf r hr).2.1]

theorem bestRev_pair_lo (t1 r1 t2 r2 tt : Nat) (h1 : t1 ≤ tt)
    (h2 : tt < t2) :
    bestRev [(t1, r1), (t2, r2)] tt = some (t1, r1) := by
  simp [bestRev, h1, show ¬ t2 ≤ tt by omega]

theorem bestRev_pair_hi (t1 r1 t2 r2 tt : Nat) (h1 : t1 < t2)
    (h2 : t2 ≤ tt) :
    bestRev [(t1, r1), (t2, r2)] tt = some (t2, r2) := by
  simp [bestRev, show t1 ≤ tt by omega, h2, h1]

theorem decodeRecord_ok (s : _index_schema) (rm : RevisionMap)
    (r : RawRecord) (m : _index_meta) (vs : List SVal)
    (h1 : selectMeta s rm r.name r.timeTag = some m)
    (h2 : decodeFields m.fields_ r.payload = .ok vs) :
    decodeRecord s rm r =
      .ok { ns := (m.namespace_ : Int), metaID := (m.id_ : Int),
            timeTag := r.timeTag, fields := vs } := by
  unfold decodeRecord
  rw [h1]
  dsimp only
  rw [h2]

/-- C6.  Revision selection in `deserializeByTime`: for a metric with
revision R1 active from `t1` and R2 active from `t2 > t1`, a record
whose own time tag lies in `[t1, t2)` is decoded with R1's field layout
and a record with time tag `>= t2` with R2's; a single call over a blob
holding one record of each kind applies the two layouts per-record, not
one global revision for the whole call. -/
theorem revision_selection_by_time
    (s : _index_schema) (rm : RevisionMap) (n : String)
    (t1 t2 u1 u2 r1 r2 id1 id2 ns1 ns2 : Nat)
    (F1 F2 : List _index_field) (p1 p2 : List Nat) (vs1 vs2 : List SVal)
    (hs : s = ⟨[{ id_ := id1, namespace_ := ns1, name_ := n,
                  revision_ := r1, fields_ := F1 },
                { id_ := id2, namespace_ := ns2, name_ := n,
                  revision_ := r2, fields_ := F2 }]⟩)
    (hrm : rm = [(n, [(t1, r1), (t2, r2)])])
    (ht : t1 < t2) (hu1a : t1 ≤ u1) (hu1b : u1 < t2) (hu2 : t2 ≤ u2)
    (hr : r1 ≠ r2)
    (hd1 : decodeFields F1 p1 = .ok vs1)
    (hd2 : decodeFields F2 p2 = .ok vs2)
    (hn : n.length < 2 ^ 32) (hu1w : u1 < 2 ^ 64) (hu2w : u2 < 2 ^ 64)
    (hb1 : (encRecord n u1 p1).length < 2 ^ 32)
    (hb2 : (encRecord n u2 p2).length < 2 ^ 32) :
    decodeRecord s rm ⟨n, u1, p1⟩ =
      .ok { ns := (ns1 : Int), metaID := (id1 : Int), timeTag := u1,
            fields := vs1 } ∧
    decodeRecord s rm ⟨n, u2, p2⟩ =
      .ok { ns := (ns2 : Int), metaID := (id2 : Int), timeTag := u2,
            fields := vs2 } ∧
    _deserialize_by_time s rm (blobOf [⟨n, u1, p1⟩, ⟨n, u2, p2⟩]) 0 =
      .ok [.ok { ns := (ns1 : Int), metaID := (id1 : Int), timeTag := u1,
                 fields := vs1 },
           .ok { ns := (ns2 : Int), metaID := (id2 : Int), timeTag := u2,
                 fields := vs2 }] := by
  subst hs hrm
  have hlook : lookupRM [(n, [(t1, r1), (t2, r2)])] n =
      some [(t1, r1), (t2, r2)] := by
    simp [lookupRM]
  have hsel1 : selectMeta
      ⟨[{ id_ := id1, namespace_ := ns1, name_ := n, revision_ := r1,
          fields_ := F1 },
        { id_ := id2, namespace_ := ns2, name_ := n, revision_ := r2,
          fields_ := F2 }]⟩ [(n, [(t1, r1), (t2, r2)])] n u1 =
      some { id_ := id1, namespace_ := ns1, name_ := n, revision_ := r1,
             fields_ := F1 } := by
    unfold selectMeta
    rw [hlook]
    dsimp only
    rw [bestRev_pair_lo t1 r1 t2 r2 u1 hu1a hu1b]
    dsimp only
    simp [findMeta]
  have hsel2 : selectMeta
      ⟨[{ id_ := id1, namespace_ := ns1, name_ := n, revision_ := r1,
          fields_ := F1 },
        { id_ := id2, namespace_ := ns2, name_ := n, revision_ := r2,
          fields_ := F2 }]⟩ [(n, [(t1, r1), (t2, r2)])] n u2 =
      some { id_ := id2, namespace_ := ns2, name_ := n, revision_ := r2,
             fields_ := F2 } := by
    unfold selectMeta
    rw [hlook]
    dsimp only
    rw [bestRev_pair_hi t1 r1 t2 r2 u2 ht hu2]
    dsimp only
    simp [findMeta, hr]
  have hdec1 := decodeRecord_ok _ _ ⟨n, u1, p1⟩ _ _ hsel1 hd1
  have hdec2 := decodeRecord_ok _ _ ⟨n, u2, p2⟩ _ _ hsel2 hd2
  refine ⟨hdec1, hdec2, ?_⟩
  rw [deserialize_blobOf _ _ _ _ ?_]
  · simp only [List.map_cons, List.map_nil]
    rw [hdec1, hdec2]
  · intro r hr'
    rcases List.mem_cons.mp hr' with h | h
    · subst h
      exact ⟨hn, hu1w, hb1⟩
    · rcases List.mem_cons.mp h with h2 | h2
      · subst h2
        exact ⟨hn, hu2w, hb2⟩
      · simp at h2

/-- C7.  Partial-failure isolation in bulk decode: in a blob with
well-formed framing, a record whose metric name is unknown to the
schema is flagged with `ErrorNoIndex` while every other (decodable)
record of the blob decodes successfully; a failing individual record
never aborts the call (the result always has one entry per framed
record); only corrupt blob framing is a fatal `ErrorFormat` for the
whole call. -/
theorem bulk_decode_partial_failure
    (s : _index_schema) (rm : RevisionMap) (pre post : List RawRecord)
    (bad : RawRecord)
    (hbad : selectMeta s rm bad.name bad.timeTag = none)
    (hgood : ∀ r ∈ pre ++ post, ∃ sv, decodeRecord s rm r = Except.ok sv)
    (hwf : ∀ r ∈ pre ++ bad :: post,
      r.name.length < 2 ^ 32 ∧ r.timeTag < 2 ^ 64 ∧
        (encRecord r.name r.timeTag r.payload).length < 2 ^ 32) :
    _deserialize_by_time s rm (blobOf (pre ++ bad :: post)) 0 =
      .ok (pre.map (decodeRecord s rm) ++
        Except.error Err.ErrorNoIndex :: post.map (decodeRecord s rm)) ∧
    (∀ x ∈ pre.map (decodeRecord s rm) ++ post.map (decodeRecord s rm),
      ∃ sv, x = Except.ok sv) ∧
    (∀ b e, parseFrames b = .error e →
      _deserialize_by_time s rm b 0 = .error .ErrorFormat) ∧
    (∀ b chunks, parseFrames b = .ok chunks →
      ∃ l, _deserialize_by_time s rm b 0 = .ok l ∧
        l.length = chunks.length) := by
  have hbadrec : decodeRecord s rm bad = .error .ErrorNoIndex := by
    unfold decodeRecord
    rw [hbad]
  refine ⟨?_, ?_, ?_, ?_⟩
  · rw [deserialize_blobOf s rm _ 0 hwf]
    simp only [List.map_append, List.map_cons]
    rw [hbadrec]
  · intro x hx
    rcases List.mem_append.mp hx with h | h
    · obtain ⟨r, hr, hrx⟩ := List.mem_map.mp h
      obtain ⟨sv, hsv⟩ := hgood r (List.mem_append_left _ hr)
      exact ⟨sv, by rw [← hrx]; exact hsv⟩
    · obtain ⟨r, hr, hrx⟩ := List.mem_map.mp h
      obtain ⟨sv, hsv⟩ := hgood r (List.mem_append_right _ hr)
      exact ⟨sv, by rw [← hrx]; exact hsv⟩
  · intro b e he
    unfold _deserialize_by_time
    rw [he]
  · intro b chunks hc
    unfold _deserialize_by_time
    rw [hc]
    exact ⟨_, rfl, by simp⟩

/-- Witness for C6: metric "m" with revision 1 (one INT field) active
from t=100 and revision 2 (two INT fields) active from t=200; a record
at t=150 decodes with one field, a record at t=250 with two, in one
call. -/
theorem revision_selection_by_time_witness :
    decodeRecord
        ⟨[{ id_ := 7, namespace_ := 0, name_ := "m", revision_ := 1,
            fields_ := [{ pos_ := 0, name_ := "a", type_ := .INT }] },
          { id_ := 8, namespace_ := 0, name_ := "m", revision_ := 2,
            fields_ := [{ pos_ := 0, name_ := "a", type_ := .INT },
                        { pos_ := 1, name_ := "b", type_ := .INT }] }]⟩
        [("m", [(100, 1), (200, 2)])] ⟨"m", 150, [42, 0, 0, 0]⟩ =
      .ok { ns := 0, metaID := 7, timeTag := 150,
            fields := [SVal.i32 42] } ∧
    decodeRecord
        ⟨[{ id_ := 7, namespace_ := 0, name_ := "m", revision_ := 1,
            fields_ := [{ pos_ := 0, name_ := "a", type_ := .INT }] },
          { id_ := 8, namespace_ := 0, name_ := "m", revision_ := 2,
            fields_ := [{ pos_ := 0, name_ := "a", type_ := .INT },
                        { pos_ := 1, name_ := "b", type_ := .INT }] }]⟩
        [("m", [(100, 1), (200, 2)])]
        ⟨"m", 250, [1, 0, 0, 0, 2, 0, 0, 0]⟩ =
      .ok { ns := 0, metaID := 8, timeTag := 250,
            fields := [SVal.i32 1, SVal.i32 2] } ∧
    _deserialize_by_time
        ⟨[{ id_ := 7, namespace_ := 0, name_ := "m", revision_ := 1,
            fields_ := [{ pos_ := 0, name_ := "a", type_ := .INT }] },
          { id_ := 8, namespace_ := 0, name_ := "m", revision_ := 2,
            fields_ := [{ pos_ := 0, name_ := "a", type_ := .INT },
                        { pos_ := 1, name_ := "b", type_ := .INT }] }]⟩
        [("m", [(100, 1), (200, 2)])]
        (blobOf [⟨"m", 150, [42, 0, 0, 0]⟩,
                 ⟨"m", 250, [1, 0, 0, 0, 2, 0, 0, 0]⟩]) 0 =
      .ok [.ok { ns := 0, metaID := 7, timeTag := 150,
                 fields := [SVal.i32 42] },
           .ok { ns := 0, metaID := 8, timeTag := 250,
                 fields := [SVal.i32 1, SVal.i32 2] }] :=
  revision_selection_by_time _ _ "m" 100 200 150 250 1 2 7 8 0 0
    [{ pos_ := 0, name_ := "a", type_ := .INT }]
    [{ pos_ := 0, name_ := "a", type_ := .INT },
     { pos_ := 1, name_ := "b", type_ := .INT }]
    [42, 0, 0, 0] [1, 0, 0, 0, 2, 0, 0, 0]
    [SVal.i32 42] [SVal.i32 1, SVal.i32 2]
    rfl rfl (by decide) (by decide) (by decide) (by decide) (by decide)
    (by decide) (by decide) (by decide) (by decide) (by decide)
    (by decide) (by decide)

/-- Witness for C7: a three-record blob whose middle record names the
unknown metric "x": the call succeeds, the middle entry is
`ErrorNoIndex`, the outer records decode. -/
theorem bulk_decode_partial_failure_witness :
    _deserialize_by_time
        ⟨[{ id_ := 7, namespace_ := 0, name_ := "m", revision_ := 1,
            fields_ := [{ pos_ := 0, name_ := "a", type_ := .INT }] }]⟩
        [("m", [(0, 1)])]
        (blobOf ([⟨"m", 5, [7, 0, 0, 0]⟩] ++ ⟨"x", 5, []⟩ ::
          [⟨"m", 6, [9, 0, 0, 0]⟩])) 0 =
      .ok ([⟨"m", 5, [7, 0, 0, 0]⟩].map (decodeRecord
          ⟨[{ id_ := 7, namespace_ := 0, name_ := "m", revision_ := 1,
              fields_ := [{ pos_ := 0, name_ := "a", type_ := .INT }] }]⟩
          [("m", [(0, 1)])]) ++
        Except.error Err.ErrorNoIndex ::
          [⟨"m", 6, [9, 0, 0, 0]⟩].map (decodeRecord
            ⟨[{ id_ := 7, namespace_ := 0, name_ := "m", revision_ := 1,
                fields_ := [{ pos_ := 0, name_ := "a", type_ := .INT }] }]⟩
            [("m", [(0, 1)])])) ∧
    (∀ x ∈ [⟨"m", 5, [7, 0, 0, 0]⟩].map (decodeRecord
          ⟨[{ id_ := 7, namespace_ := 0, name_ := "m", revision_ := 1,
              fields_ := [{ pos_ := 0, name_ := "a", type_ := .INT }] }]⟩
          [("m", [(0, 1)])]) ++
        [⟨"m", 6, [9, 0, 0, 0]⟩].map (decodeRecord
          ⟨[{ id_ := 7, namespace_ := 0, name_ := "m", revision_ := 1,
              fields_ := [{ pos_ := 0, name_ := "a", type_ := .INT }] }]⟩
          [("m", [(0, 1)])]),
      ∃ sv, x = Except.ok sv) ∧
    (∀ b e, parseFrames b = .error e →
      _deserialize_by_time
        ⟨[{ id_ := 7, namespace_ := 0, name_ := "m", revision_ := 1,
            fields_ := [{ pos_ := 0, name_ := "a", type_ := .INT }] }]⟩
        [("m", [(0, 1)])] b 0 = .error .ErrorFormat) ∧
    (∀ b chunks, parseFrames b = .ok chunks →
      ∃ l, _deserialize_by_time
        ⟨[{ id_ := 7, namespace_ := 0, name_ := "m", revision_ := 1,
            fields_ := [{ pos_ := 0, name_ := "a", type_ := .INT }] }]⟩
        [("m", [(0, 1)])] b 0 = .ok l ∧ l.length = chunks.length) :=
  bulk_decode_partial_failure
    ⟨[{ id_ := 7, namespace_ := 0, name_ := "m", revision_ := 1,
        fields_ := [{ pos_ := 0, name_ := "a", type_ := .INT }] }]⟩
    [("m", [(0, 1)])]
    [⟨"m", 5, [7, 0, 0, 0]⟩] [⟨"m", 6, [9, 0, 0, 0]⟩] ⟨"x", 5, []⟩
    (by decide)
    (by
      intro r hr
      rcases List.mem_cons.mp hr with h | h
      · subst h
        exact ⟨{ ns := 0, metaID := 7, timeTag := 5,
                 fields := [SVal.i32 7] }, by decide⟩
      · rcases List.mem_cons.mp h with h2 | h2
        · subst h2
          exact ⟨{ ns := 0, metaID := 7, timeTag := 6,
                   fields := [SVal.i32 9] }, by decide⟩
        · simp at h2)
    (by
      intro r hr
      rcases List.mem_cons.mp hr with h | h
      · subst h
        exact ⟨by decide, by decide, by decide⟩
      · rcases List.mem_cons.mp h with h2 | h2
        · subst h2
          exact ⟨by decide, by decide, by decide⟩
        · rcases List.mem_cons.mp h2 with h3 | h3
          · subst h3
            exact ⟨by decide, by decide, by decide⟩
          · simp at h3)

end Caitlyn
